import Mathlib

/-!
Verification of the ALwrity AI Hashtag Generator core
(src/hashtag_generator.py, src/config.py; the same functions are duplicated
verbatim in src/app.py).

The development shallowly embeds:
* the character predicates used by the token-cleaning loop (Python's
  `str.isalnum`, `str.isspace`),
* the hashtag normalization routine (the token-cleaning loop of
  `generate_hashtags`, src/hashtag_generator.py lines 113-140),
* the platform / category catalogs from src/config.py,
* `adjust_count_for_platform`, `get_platform_info`, `get_category_keywords`,
* the prompt construction `get_enhanced_prompt` over `ENHANCED_PROMPT`,
* the outer `generate_hashtags` control flow (API-key check, gateway call).

Strings are modelled as `String` / `List Char`; Python integers as `Int`.
-/

set_option maxRecDepth 20000

namespace Alwrity

/-- Models Python `str.isalnum` (Unicode alphanumeric). The table is exact on
the Basic Latin and Latin-1 Supplement blocks (U+0000-U+00FF): ASCII digits
and letters, the Latin-1 letters U+00AA, U+00B5, U+00BA, U+00C0-U+00FF
without the two operators U+00D7 and U+00F7, and the Latin-1 numerics
U+00B2, U+00B3, U+00B9, U+00BC-U+00BE. Code points above U+00FF are
classified as non-alphanumeric (no claim in this development evaluates the
routine on such characters). -/
def pyIsAlnum (c : Char) : Bool :=
  decide ((48 ≤ c.toNat ∧ c.toNat ≤ 57) ∨ (65 ≤ c.toNat ∧ c.toNat ≤ 90) ∨
    (97 ≤ c.toNat ∧ c.toNat ≤ 122) ∨
    c.toNat = 0xAA ∨ c.toNat = 0xB5 ∨ c.toNat = 0xBA ∨
    c.toNat = 0xB2 ∨ c.toNat = 0xB3 ∨ c.toNat = 0xB9 ∨
    (0xBC ≤ c.toNat ∧ c.toNat ≤ 0xBE) ∨
    (0xC0 ≤ c.toNat ∧ c.toNat ≤ 0xFF ∧ c.toNat ≠ 0xD7 ∧ c.toNat ≠ 0xF7))

/-- Models Python `str.isspace` / the whitespace set of `str.split()` and
`str.strip()`: exact on U+0000-U+00FF (ASCII whitespace, the information
separators U+001C-U+001F, NEL U+0085 and NBSP U+00A0). -/
def pyIsSpace (c : Char) : Bool :=
  decide (c.toNat = 9 ∨ c.toNat = 10 ∨ c.toNat = 11 ∨ c.toNat = 12 ∨
    c.toNat = 13 ∨ (28 ≤ c.toNat ∧ c.toNat ≤ 31) ∨ c.toNat = 32 ∨
    c.toNat = 0x85 ∨ c.toNat = 0xA0)

/-- The character filter of the cleaning loop, line 130 of
src/hashtag_generator.py: `ch.isalnum() or ch == "_"`. -/
def pyKeep (c : Char) : Bool :=
  pyIsAlnum c || c == '_'

/-- Python `str.strip()`: drop leading and trailing whitespace. -/
def pyStrip (s : List Char) : List Char :=
  ((s.dropWhile pyIsSpace).reverse.dropWhile pyIsSpace).reverse

/-- Worker for `pySplitWs`; `acc` holds the current (reversed) token. -/
def pySplitAux : List Char → List Char → List (List Char)
  | [], acc => if acc = [] then [] else [acc.reverse]
  | c :: cs, acc =>
    if pyIsSpace c then
      if acc = [] then pySplitAux cs [] else acc.reverse :: pySplitAux cs []
    else pySplitAux cs (c :: acc)

/-- Python `str.split()` with no argument: split on whitespace runs,
discarding empty pieces. -/
def pySplitWs (s : List Char) : List (List Char) :=
  pySplitAux s []

/-- `text.replace("\n", " ")`, character by character. -/
def nl2sp (c : Char) : Char :=
  if c = '\n' then ' ' else c

/-- Python `tok.startswith("#")`. -/
def startsHash : List Char → Bool
  | '#' :: _ => true
  | _ => false

/-- The per-token transform of the cleaning loop, lines 123-131 of
src/hashtag_generator.py: strip the token, ensure a single leading `#`
(`"#" + tok.lstrip("#")` when the token does not already start with `#`),
then keep from the body only characters passing `pyKeep`. -/
def cleanTok (t : List Char) : List Char :=
  let tok := pyStrip t
  let tok1 := if startsHash tok then tok else '#' :: tok.dropWhile (fun c => c == '#')
  tok1.take 1 ++ (tok1.drop 1).filter pyKeep

/-- The cleaning loop of `generate_hashtags`, lines 122-138 of
src/hashtag_generator.py. `seen` models the Python set (only membership is
used), `cleaned` the accumulated output. A token is skipped when its
stripped form is empty (`if not tok: continue`), when the cleaned form has
length at most 1, or when it was already seen; otherwise it is appended and
the loop stops as soon as `len(cleaned) >= num` (checked after the append). -/
def cleanLoop (num : Int) : List (List Char) → List (List Char) → List (List Char) → List (List Char)
  | [], _seen, cleaned => cleaned
  | t :: ts, seen, cleaned =>
    if pyStrip t = [] then cleanLoop num ts seen cleaned
    else if (cleanTok t).length ≤ 1 ∨ cleanTok t ∈ seen then cleanLoop num ts seen cleaned
    else if num ≤ (cleaned.length + 1 : Int) then cleaned ++ [cleanTok t]
    else cleanLoop num ts (cleanTok t :: seen) (cleaned ++ [cleanTok t])

/-- The hashtag normalization routine: lines 113-140 of
src/hashtag_generator.py (identical in src/app.py lines 266-292). The raw
response text is stripped; an empty result returns `[]`; otherwise newlines
are replaced by spaces, the text is split on whitespace and the cleaning
loop runs with empty `seen`/`cleaned`. -/
def normalize (rawText : List Char) (num : Int) : List (List Char) :=
  let text := pyStrip rawText
  if text = [] then []
  else cleanLoop num (pySplitWs (text.map nl2sp)) [] []

/-- A platform entry of `PLATFORM_CONFIG` (src/config.py lines 7-33). -/
structure PlatformProfile where
  optimal_min : Int
  optimal_max : Int
  style : String
  requirements : String
deriving DecidableEq

def instagramProfile : PlatformProfile :=
  ⟨8, 12, "Mix of popular and niche hashtags for community engagement",
    "Focus on lifestyle, visual appeal, and community building. Include trending and evergreen hashtags."⟩

def tiktokProfile : PlatformProfile :=
  ⟨5, 8, "Trending and viral format hashtags",
    "Emphasize trending challenges, viral content, and short catchy phrases. Include dance, music, and trend-related tags."⟩

def linkedinProfile : PlatformProfile :=
  ⟨3, 5, "Professional and industry-specific hashtags",
    "Focus on professional development, industry insights, and thought leadership. Avoid casual or entertainment hashtags."⟩

def twitterProfile : PlatformProfile :=
  ⟨1, 3, "Concise and trending topic hashtags",
    "Keep it minimal and news-worthy. Focus on current events, conversations, and trending topics."⟩

def youtubeProfile : PlatformProfile :=
  ⟨5, 10, "Searchable keyword hashtags",
    "Optimize for search discovery. Include descriptive, educational, and how-to related hashtags."⟩

/-- `PLATFORM_CONFIG` of src/config.py lines 7-33 (same table in src/app.py). -/
def PLATFORM_CONFIG : List (String × PlatformProfile) :=
  [("Instagram", instagramProfile), ("TikTok", tiktokProfile),
   ("LinkedIn", linkedinProfile), ("Twitter", twitterProfile),
   ("YouTube", youtubeProfile)]

/-- Dictionary lookup `PLATFORM_CONFIG[name]` / the membership test
`name in PLATFORM_CONFIG`. -/
def platformLookup (name : String) : Option PlatformProfile :=
  (PLATFORM_CONFIG.find? (fun p => p.1 == name)).map (fun p => p.2)

/-- `CATEGORY_KEYWORDS` of src/config.py lines 36-45. -/
def CATEGORY_KEYWORDS : List (String × List String) :=
  [("Business", ["entrepreneur", "startup", "leadership", "productivity", "business", "marketing", "sales", "growth"]),
   ("Lifestyle", ["dailylife", "inspiration", "wellness", "mindfulness", "lifestyle", "motivation", "selfcare", "happiness"]),
   ("Technology", ["tech", "innovation", "AI", "digital", "software", "coding", "programming", "future"]),
   ("Travel", ["wanderlust", "adventure", "explore", "destination", "travel", "vacation", "journey", "discover"]),
   ("Food", ["foodie", "recipe", "cooking", "delicious", "cuisine", "chef", "homemade", "tasty"]),
   ("Fitness", ["workout", "health", "motivation", "fitlife", "training", "gym", "exercise", "wellness"]),
   ("Education", ["learning", "knowledge", "skills", "growth", "study", "education", "teaching", "development"]),
   ("Entertainment", ["fun", "trending", "viral", "creative", "content", "entertainment", "comedy", "music"])]

/-- Python `CATEGORY_KEYWORDS.get(name, default)`. -/
def categoryGet (name : String) (default : List String) : List String :=
  match CATEGORY_KEYWORDS.find? (fun p => p.1 == name) with
  | some p => p.2
  | none => default

/-- Lookup without default, to state which names are in the catalog. -/
def categoryLookup (name : String) : Option (List String) :=
  (CATEGORY_KEYWORDS.find? (fun p => p.1 == name)).map (fun p => p.2)

/-- `get_category_keywords` (src/hashtag_generator.py lines 156-166):
`CATEGORY_KEYWORDS.get(category, [])`. -/
def get_category_keywords (category : String) : List String :=
  categoryGet category []

/-- `get_platform_info` (src/hashtag_generator.py lines 143-153) and the
lookup at line 44: `PLATFORM_CONFIG.get(platform, PLATFORM_CONFIG["Instagram"])`. -/
def get_platform_info (platform : String) : PlatformProfile :=
  match platformLookup platform with
  | some p => p
  | none => instagramProfile

/-- `adjust_count_for_platform` (src/hashtag_generator.py lines 58-82,
identical in src/app.py lines 228-243): unknown platforms return the user
count unchanged; otherwise the count is kept inside the optimal range and
clamped to the nearer bound outside it. -/
def adjust_count_for_platform (platform : String) (user_count : Int) : Int :=
  match platformLookup platform with
  | none => user_count
  | some prof =>
    if prof.optimal_min ≤ user_count ∧ user_count ≤ prof.optimal_max then user_count
    else if user_count < prof.optimal_min then prof.optimal_min
    else prof.optimal_max

/-- `ENHANCED_PROMPT` (src/config.py lines 48-72) with its placeholders
substituted, as Python's `str.format` produces it in `get_enhanced_prompt`.
The template text is reproduced verbatim, written as a concatenation whose
literal pieces are split at the boundaries of the interpolated values and of
the template's sentences. -/
def formatEnhancedPrompt (platform source_type : String) (num : Int)
    (category platform_requirements category_keywords content : String) : String :=
  "\n" ++
  "You are an expert social media strategist specializing in " ++ platform ++ " content." ++
  "\nGiven the following content from " ++ source_type ++ ", generate exactly " ++
    toString num ++ " high-quality, \ntrend-aware, brand-safe hashtags optimized for " ++
    platform ++ " in the " ++ category ++ " niche.\n\nPlatform-specific requirements for " ++
    platform ++ ":\n" ++
  platform_requirements ++
  "\n\n" ++
  "Category focus: " ++ category ++ "\nInclude relevant terms like: " ++ category_keywords ++
  "\n\nContent: \"" ++ content ++ "\"" ++
  "\n\nGuidelines:\n- Optimize for " ++ platform ++ " algorithm and user behavior\n- Include " ++
    category ++ "-specific terminology\n- Mix broad reach and niche targeting hashtags\n- Make hashtags short (1–3 words), readable, and relevant\n- Avoid duplicates, numbers, and banned/sensitive words\n- Use only standard ASCII characters; no emojis\n- Output as ONE single line, space-separated, each starting with '#'\n" ++
  "- Output EXACTLY " ++ toString num ++ " hashtags and nothing else" ++
  "\n\nGenerate " ++ toString num ++ " hashtags:\n"

/-- `get_enhanced_prompt` (src/hashtag_generator.py lines 30-55, identical in
src/app.py lines 212-225): look up the platform profile with Instagram
fallback, join the category keywords with `", "` (empty list for unknown
categories), and format `ENHANCED_PROMPT`. -/
def get_enhanced_prompt (content platform category : String) (num : Int)
    (source_type : String) : String :=
  formatEnhancedPrompt platform source_type num category
    (get_platform_info platform).requirements
    (String.intercalate ", " (categoryGet category [])) content

/-- Error taxonomy of `generate_hashtags`: the two `RuntimeError` sites
(missing key, lines 98-101; wrapped API failure, lines 110-111). -/
inductive GenError where
  | config : String → GenError
  | api : String → GenError
deriving DecidableEq

/-- The message of the missing-credential error, line 100 of
src/hashtag_generator.py. -/
def missingKeyMsg : String :=
  "Missing GEMINI_API_KEY. Set it in environment or Streamlit secrets."

/-- `generate_hashtags` (src/hashtag_generator.py lines 85-140). The Gemini
client is modelled as an explicit `gateway` argument: prompt in, either an
exception message or a response whose `.text` may be `None`. The prompt
template's `.format(seed=..., num=...)` is modelled as a function of the
stripped seed and the count. The final token-cleaning loop is `normalize`. -/
def generate_hashtags (apiKey : String)
    (gateway : String → Except String (Option String))
    (seed : String) (num : Int) (promptTemplate : String → Int → String) :
    Except GenError (List (List Char)) :=
  if apiKey = "" then
    Except.error (GenError.config missingKeyMsg)
  else
    match gateway (promptTemplate (String.mk (pyStrip seed.data)) num) with
    | Except.error exc => Except.error (GenError.api ("Gemini API error: " ++ exc))
    | Except.ok respText => Except.ok (normalize (respText.getD "").data num)

/-! ### Specification-side reference definitions (used only in statements) -/

/-- The token stream the cleaning loop sees: split of the stripped,
newline-replaced raw text. -/
def tokensOf (raw : List Char) : List (List Char) :=
  pySplitWs ((pyStrip raw).map nl2sp)

/-- All cleaned tokens of the raw text that pass the validity check
(length greater than 1), before deduplication and truncation. -/
def validTokens (raw : List Char) : List (List Char) :=
  ((tokensOf raw).map cleanTok).filter (fun t => decide (1 < t.length))

/-- First-occurrence deduplication relative to an already-seen set. -/
def dedupFirstSeen {α : Type} [DecidableEq α] (seen : List α) : List α → List α
  | [] => []
  | a :: l => if a ∈ seen then dedupFirstSeen seen l else a :: dedupFirstSeen (a :: seen) l

/-- Keep the first occurrence of every element, in first-seen order. -/
def dedupFirst {α : Type} [DecidableEq α] (l : List α) : List α :=
  dedupFirstSeen [] l

/-- Python `" ".join(L)`. -/
def joinSpaces : List (List Char) → List Char
  | [] => []
  | [t] => t
  | t :: t' :: ts => t ++ ' ' :: joinSpaces (t' :: ts)

/-- The claim C3 notion of an ASCII hashtag-body character:
ASCII alphanumeric or underscore. -/
def asciiAlnumU (c : Char) : Bool :=
  decide ((48 ≤ c.toNat ∧ c.toNat ≤ 57) ∨ (65 ≤ c.toNat ∧ c.toNat ≤ 90) ∨
    (97 ≤ c.toNat ∧ c.toNat ≤ 122) ∨ c.toNat = 95)

/-- `s` contains the five strings as disjoint segments in the given order. -/
def ContainsInOrder5 (p1 p2 p3 p4 p5 s : String) : Prop :=
  ∃ a0 a1 a2 a3 a4 a5 : String,
    s = a0 ++ p1 ++ a1 ++ p2 ++ a2 ++ p3 ++ a3 ++ p4 ++ a4 ++ p5 ++ a5

/-- `p` occurs as a contiguous segment of `s`. -/
def strContainsSeg (p s : String) : Prop :=
  ∃ a b : String, s = a ++ p ++ b

/-- The part of the prompt
`get_enhanced_prompt "Q" "Twitter" "Business" 3 "manual input"` that comes
before its content character `Q` (which occurs nowhere else in that prompt). -/
def promptPre : String :=
  "\nYou are an expert social media strategist specializing in Twitter content.\nGiven the following content from manual input, generate exactly 3 high-quality, \ntrend-aware, brand-safe hashtags optimized for Twitter in the Business niche.\n\nPlatform-specific requirements for Twitter:\nKeep it minimal and news-worthy. Focus on current events, conversations, and trending topics.\n\nCategory focus: Business\nInclude relevant terms like: entrepreneur, startup, leadership, productivity, business, marketing, sales, growth\n\nContent: \""

/-- The part of the same prompt after the content character `Q`. -/
def promptTail : String :=
  "\"\n\nGuidelines:\n- Optimize for Twitter algorithm and user behavior\n- Include Business-specific terminology\n- Mix broad reach and niche targeting hashtags\n- Make hashtags short (1–3 words), readable, and relevant\n- Avoid duplicates, numbers, and banned/sensitive words\n- Use only standard ASCII characters; no emojis\n- Output as ONE single line, space-separated, each starting with '#'\n- Output EXACTLY 3 hashtags and nothing else\n\nGenerate 3 hashtags:\n"

end Alwrity

namespace Alwrity

/-! ### Character-level facts -/

theorem pyKeep_not_space {c : Char} (h : pyKeep c = true) : pyIsSpace c = false := by
  simp only [pyKeep, Bool.or_eq_true, beq_iff_eq, pyIsAlnum, decide_eq_true_eq] at h
  simp only [pyIsSpace, decide_eq_false_iff_not]
  rcases h with h | rfl
  · omega
  · decide

theorem pyKeep_ne_nl {c : Char} (h : pyKeep c = true) : c ≠ '\n' := by
  intro hc
  subst hc
  exact absurd h (by decide)

/-! ### Properties of first-occurrence deduplication -/

theorem dedupFirstSeen_sublist {α : Type} [DecidableEq α] (seen l : List α) :
    List.Sublist (dedupFirstSeen seen l) l := by
  induction l generalizing seen with
  | nil => simp [dedupFirstSeen]
  | cons a l ih =>
    rw [dedupFirstSeen]
    split
    · exact (ih seen).cons a
    · exact (ih (a :: seen)).cons₂ a

theorem not_mem_seen_of_mem_dedupFirstSeen {α : Type} [DecidableEq α]
    {seen l : List α} {x : α} (h : x ∈ dedupFirstSeen seen l) : x ∉ seen := by
  induction l generalizing seen with
  | nil => simp [dedupFirstSeen] at h
  | cons a l ih =>
    rw [dedupFirstSeen] at h
    split at h
    · exact ih h
    · rcases List.mem_cons.mp h with rfl | h2
      · assumption
      · exact fun hx => ih h2 (List.mem_cons_of_mem a hx)

theorem dedupFirstSeen_nodup {α : Type} [DecidableEq α] (seen l : List α) :
    (dedupFirstSeen seen l).Nodup := by
  induction l generalizing seen with
  | nil => simp [dedupFirstSeen]
  | cons a l ih =>
    rw [dedupFirstSeen]
    split
    · exact ih seen
    · refine List.nodup_cons.mpr ⟨fun hmem => ?_, ih (a :: seen)⟩
      exact (not_mem_seen_of_mem_dedupFirstSeen hmem) (List.mem_cons_self a seen)

theorem dedupFirstSeen_eq_self {α : Type} [DecidableEq α] {seen l : List α}
    (h1 : l.Nodup) (h2 : ∀ x ∈ l, x ∉ seen) : dedupFirstSeen seen l = l := by
  induction l generalizing seen with
  | nil => simp [dedupFirstSeen]
  | cons a l ih =>
    rcases List.nodup_cons.mp h1 with ⟨ha, hl⟩
    rw [dedupFirstSeen, if_neg (h2 a (List.mem_cons_self a l))]
    congr 1
    refine ih hl fun x hx hmem => ?_
    rcases List.mem_cons.mp hmem with rfl | hmem2
    · exact ha hx
    · exact h2 x (List.mem_cons_of_mem a hx) hmem2

/-! ### Shape of cleaned tokens -/

theorem cleanTok_of_strip_nil {t : List Char} (h : pyStrip t = []) : cleanTok t = ['#'] := by
  simp [cleanTok, h, startsHash]

theorem cleanTok_shape (t : List Char) :
    ∃ body : List Char, cleanTok t = '#' :: body.filter pyKeep := by
  cases hp : pyStrip t with
  | nil => exact ⟨[], by simp [cleanTok_of_strip_nil hp]⟩
  | cons c rest =>
    by_cases hc : c = '#'
    · subst hc
      exact ⟨rest, by simp [cleanTok, hp, startsHash]⟩
    · refine ⟨(c :: rest).dropWhile (fun c => c == '#'), ?_⟩
      simp [cleanTok, hp, startsHash, hc]

/-! ### The cleaning loop computes truncated first-occurrence deduplication -/

theorem cleanLoop_characterization (num : Int) (ts : List (List Char)) :
    ∀ (seen cleaned : List (List Char)),
      ((cleaned.length : Int) < num ∨ cleaned = []) →
      cleanLoop num ts seen cleaned =
        cleaned ++ (dedupFirstSeen seen
            ((ts.map cleanTok).filter (fun t => decide (1 < t.length)))).take
          (max 1 (num - cleaned.length)).toNat := by
  induction ts with
  | nil => intro seen cleaned h; simp [cleanLoop, dedupFirstSeen]
  | cons t ts ih =>
    intro seen cleaned h
    rw [cleanLoop]
    by_cases h0 : pyStrip t = []
    · rw [if_pos h0, ih seen cleaned h]
      have hct : cleanTok t = ['#'] := cleanTok_of_strip_nil h0
      simp [hct]
    · rw [if_neg h0]
      by_cases h1 : (cleanTok t).length ≤ 1 ∨ cleanTok t ∈ seen
      · rw [if_pos h1]
        by_cases hle : (cleanTok t).length ≤ 1
        · rw [ih seen cleaned h]
          have : decide (1 < (cleanTok t).length) = false := by
            simp only [decide_eq_false_iff_not]; omega
          simp [List.filter_cons, this]
        · have hmem : cleanTok t ∈ seen := h1.resolve_left hle
          have hlen : decide (1 < (cleanTok t).length) = true := by
            simp only [decide_eq_true_eq]; omega
          rw [ih seen cleaned h]
          simp [List.filter_cons, hlen, dedupFirstSeen, hmem]
      · push_neg at h1
        rcases h1 with ⟨hgt, hnmem⟩
        have hlen : decide (1 < (cleanTok t).length) = true := by
          simp only [decide_eq_true_eq]; omega
        rw [if_neg (by push_neg; exact ⟨hgt, hnmem⟩)]
        have hle1 : num ≤ (cleaned.length + 1 : Int) → num - (cleaned.length : Int) ≤ 1 := by
          omega
        by_cases h2 : num ≤ (cleaned.length + 1 : Int)
        · rw [if_pos h2]
          have hmax : (max 1 (num - (cleaned.length : Int))).toNat = 1 := by
            rw [max_eq_left (hle1 h2)]
            rfl
          rw [hmax]
          simp [List.filter_cons, hlen, dedupFirstSeen, hnmem]
        · rw [if_neg h2]
          push_neg at h2
          have hstep := ih (cleanTok t :: seen) (cleaned ++ [cleanTok t])
            (Or.inl (by simp; omega))
          rw [hstep]
          have hlen2 : ((cleaned ++ [cleanTok t]).length : Int) = (cleaned.length : Int) + 1 := by
            simp
          rw [hlen2]
          have hge2 : 2 ≤ num - (cleaned.length : Int) := by omega
          have hm1 : max 1 (num - (cleaned.length : Int)) = num - (cleaned.length : Int) :=
            max_eq_right (by omega)
          have hm2 : max 1 (num - ((cleaned.length : Int) + 1)) =
              num - (cleaned.length : Int) - 1 := by
            rw [max_eq_right (by omega)]
            ring
          rw [hm1, hm2]
          have hnat : (num - (cleaned.length : Int)).toNat =
              (num - (cleaned.length : Int) - 1).toNat + 1 := by omega
          rw [hnat]
          simp [List.filter_cons, hlen, dedupFirstSeen, hnmem, List.take_succ_cons,
            List.append_assoc]

theorem normalize_characterization (raw : List Char) (num : Int) :
    normalize raw num = (dedupFirst (validTokens raw)).take (max 1 num).toNat := by
  by_cases h : pyStrip raw = []
  · simp [normalize, h, validTokens, tokensOf, pySplitWs, pySplitAux, dedupFirst, dedupFirstSeen]
  · have := cleanLoop_characterization num (pySplitWs ((pyStrip raw).map nl2sp)) [] []
      (Or.inr rfl)
    simp only [normalize, if_neg h]
    rw [this]
    simp [validTokens, tokensOf, dedupFirst]

end Alwrity

namespace Alwrity

/-! ### Splitting and stripping lemmas -/

theorem dropWhile_space_eq_self {l : List Char} (h : ∀ c ∈ l, pyIsSpace c = false) :
    l.dropWhile pyIsSpace = l := by
  cases l with
  | nil => rfl
  | cons a l => rw [List.dropWhile_cons, if_neg (by simp [h a (List.mem_cons_self a l)])]

theorem pyStrip_eq_self {t : List Char} (h : ∀ c ∈ t, pyIsSpace c = false) :
    pyStrip t = t := by
  rw [pyStrip, dropWhile_space_eq_self h,
    dropWhile_space_eq_self (fun c hc => h c (List.mem_reverse.mp hc)), List.reverse_reverse]

theorem pySplitAux_append_of_not_space {t : List Char} (ht : ∀ c ∈ t, pyIsSpace c = false) :
    ∀ (s acc : List Char), pySplitAux (t ++ s) acc = pySplitAux s (t.reverse ++ acc) := by
  induction t with
  | nil => intro s acc; simp
  | cons c t ih =>
    intro s acc
    have hc : pyIsSpace c = false := ht c (List.mem_cons_self c t)
    rw [List.cons_append, pySplitAux, if_neg (by simp [hc]),
      ih (fun c hc' => ht c (List.mem_cons_of_mem _ hc')) s (c :: acc)]
    simp

theorem pySplitAux_all_space {w : List Char} (hw : ∀ c ∈ w, pyIsSpace c = true) :
    ∀ acc, pySplitAux w acc = if acc = [] then [] else [acc.reverse] := by
  induction w with
  | nil => intro acc; rfl
  | cons c w ih =>
    intro acc
    have hc := hw c (List.mem_cons_self c w)
    have ih' := ih fun c h => hw c (List.mem_cons_of_mem _ h)
    by_cases ha : acc = []
    · subst ha
      simp [pySplitAux, hc, ih']
    · simp [pySplitAux, hc, ih', ha]

theorem pySplitAux_append_all_space {w : List Char} (hw : ∀ c ∈ w, pyIsSpace c = true) :
    ∀ (s acc : List Char), pySplitAux (s ++ w) acc = pySplitAux s acc := by
  intro s
  induction s with
  | nil =>
    intro acc
    rw [List.nil_append, pySplitAux_all_space hw acc]
    simp [pySplitAux]
  | cons c s ih =>
    intro acc
    rw [List.cons_append]
    by_cases hc : pyIsSpace c = true
    · by_cases ha : acc = []
      · subst ha
        simp [pySplitAux, hc, ih []]
      · simp [pySplitAux, hc, ha, ih []]
    · simp [pySplitAux, hc, ih (c :: acc)]

theorem pySplitWs_dropWhile_space (s : List Char) :
    pySplitWs (s.dropWhile pyIsSpace) = pySplitWs s := by
  induction s with
  | nil => rfl
  | cons c s ih =>
    by_cases hc : pyIsSpace c = true
    · rw [List.dropWhile_cons, if_pos (by simp [hc]), ih]
      simp [pySplitWs, pySplitAux, hc]
    · rw [List.dropWhile_cons, if_neg (by simp [hc])]

theorem pySplitWs_pyStrip (s : List Char) : pySplitWs (pyStrip s) = pySplitWs s := by
  have key : s.dropWhile pyIsSpace =
      pyStrip s ++ ((s.dropWhile pyIsSpace).reverse.takeWhile pyIsSpace).reverse := by
    conv_lhs => rw [← List.reverse_reverse (s.dropWhile pyIsSpace),
      ← List.takeWhile_append_dropWhile (p := pyIsSpace)
        (l := (s.dropWhile pyIsSpace).reverse)]
    rw [List.reverse_append]
    rfl
  have hw : ∀ c ∈ ((s.dropWhile pyIsSpace).reverse.takeWhile pyIsSpace).reverse,
      pyIsSpace c = true :=
    fun c hc => List.mem_takeWhile_imp (List.mem_reverse.mp hc)
  calc pySplitWs (pyStrip s)
      = pySplitWs (pyStrip s ++ ((s.dropWhile pyIsSpace).reverse.takeWhile pyIsSpace).reverse) :=
        (pySplitAux_append_all_space hw (pyStrip s) []).symm
    _ = pySplitWs (s.dropWhile pyIsSpace) := by rw [← key]
    _ = pySplitWs s := pySplitWs_dropWhile_space s

theorem map_nl2sp_eq_self {l : List Char} (h : '\n' ∉ l) : l.map nl2sp = l := by
  induction l with
  | nil => rfl
  | cons c l ih =>
    simp only [List.mem_cons, not_or] at h
    rw [List.map_cons, ih h.2, nl2sp, if_neg (fun hc => h.1 hc.symm)]

theorem mem_pyStrip {s : List Char} {c : Char} (h : c ∈ pyStrip s) : c ∈ s := by
  rw [pyStrip] at h
  have h1 := List.mem_reverse.mp h
  have h2 := (List.dropWhile_sublist (l := (s.dropWhile pyIsSpace).reverse)
    (p := pyIsSpace)).mem h1
  have h3 := List.mem_reverse.mp h2
  exact (List.dropWhile_sublist (l := s) (p := pyIsSpace)).mem h3

/-! ### Joining with spaces -/

theorem joinSpaces_chars {L : List (List Char)} {c : Char} (h : c ∈ joinSpaces L) :
    c = ' ' ∨ ∃ t ∈ L, c ∈ t := by
  induction L with
  | nil => simp [joinSpaces] at h
  | cons t L ih =>
    cases L with
    | nil => exact Or.inr ⟨t, List.mem_cons_self t [], by simpa [joinSpaces] using h⟩
    | cons t' L' =>
      rw [joinSpaces] at h
      rcases List.mem_append.mp h with h1 | h2
      · exact Or.inr ⟨t, List.mem_cons_self _ _, h1⟩
      · rcases List.mem_cons.mp h2 with rfl | h3
        · exact Or.inl rfl
        · rcases ih h3 with h4 | ⟨u, hu, hcu⟩
          · exact Or.inl h4
          · exact Or.inr ⟨u, List.mem_cons_of_mem _ hu, hcu⟩

theorem split_joinSpaces {L : List (List Char)} (hne : ∀ t ∈ L, t ≠ [])
    (hns : ∀ t ∈ L, ∀ c ∈ t, pyIsSpace c = false) :
    pySplitWs (joinSpaces L) = L := by
  induction L with
  | nil => rfl
  | cons t L ih =>
    cases L with
    | nil =>
      show pySplitAux (joinSpaces [t]) [] = [t]
      have hj : joinSpaces [t] = t ++ [] := by simp [joinSpaces]
      rw [hj, pySplitAux_append_of_not_space (hns t (List.mem_cons_self t [])) [] []]
      simp [pySplitAux, hne t (List.mem_cons_self t [])]
    | cons t' L' =>
      show pySplitAux (joinSpaces (t :: t' :: L')) [] = t :: t' :: L'
      rw [joinSpaces,
        pySplitAux_append_of_not_space (hns t (List.mem_cons_self t _)) _ [],
        pySplitAux, if_pos (by decide),
        if_neg (by simp [hne t (List.mem_cons_self t _)])]
      have ih' := ih (fun u hu => hne u (List.mem_cons_of_mem t hu))
        (fun u hu => hns u (List.mem_cons_of_mem t hu))
      rw [show pySplitAux (joinSpaces (t' :: L')) [] = pySplitWs (joinSpaces (t' :: L')) from rfl,
        ih']
      simp

end Alwrity

namespace Alwrity

/-! ### Consequences of the characterization -/

theorem mem_normalize {raw : List Char} {num : Int} {t : List Char}
    (h : t ∈ normalize raw num) :
    1 < t.length ∧ ∃ body : List Char, t = '#' :: body.filter pyKeep := by
  rw [normalize_characterization] at h
  have h1 : t ∈ dedupFirst (validTokens raw) := (List.take_sublist _ _).mem h
  have h2 : t ∈ validTokens raw := (dedupFirstSeen_sublist [] _).mem h1
  obtain ⟨hmem, hlen⟩ := List.mem_filter.mp h2
  obtain ⟨u, _, hu⟩ := List.mem_map.mp hmem
  refine ⟨of_decide_eq_true hlen, ?_⟩
  rw [← hu]
  exact cleanTok_shape u

theorem normalize_nodup (raw : List Char) (num : Int) : (normalize raw num).Nodup := by
  rw [normalize_characterization]
  exact (dedupFirstSeen_nodup [] _).sublist (List.take_sublist _ _)

theorem map_eq_self_of {α : Type} {f : α → α} :
    ∀ {l : List α}, (∀ x ∈ l, f x = x) → l.map f = l := by
  intro l
  induction l with
  | nil => intro _; rfl
  | cons a l ih =>
    intro h
    rw [List.map_cons, h a (List.mem_cons_self a l),
      ih fun x hx => h x (List.mem_cons_of_mem a hx)]

theorem cleanTok_fixed {t : List Char} (hh : startsHash t = true)
    (hk : ∀ c ∈ t.drop 1, pyKeep c = true) (hns : ∀ c ∈ t, pyIsSpace c = false) :
    cleanTok t = t := by
  have hstrip : pyStrip t = t := pyStrip_eq_self hns
  simp only [cleanTok, hstrip, hh, if_true]
  rw [List.filter_eq_self.mpr hk, List.take_append_drop]

theorem validTokens_joinSpaces (L : List (List Char))
    (hL : ∀ t ∈ L, 1 < t.length ∧ ∃ body : List Char, t = '#' :: body.filter pyKeep) :
    validTokens (joinSpaces L) = L := by
  have hns : ∀ t ∈ L, ∀ c ∈ t, pyIsSpace c = false := by
    intro t ht c hc
    obtain ⟨_, body, rfl⟩ := hL t ht
    rcases List.mem_cons.mp hc with rfl | h2
    · decide
    · exact pyKeep_not_space (List.of_mem_filter h2)
  have hne : ∀ t ∈ L, t ≠ [] := by
    intro t ht h
    obtain ⟨hlen, _⟩ := hL t ht
    rw [h] at hlen
    simp at hlen
  have hnl : '\n' ∉ joinSpaces L := by
    intro h
    rcases joinSpaces_chars h with h1 | ⟨t, ht, hct⟩
    · exact absurd h1 (by decide)
    · obtain ⟨_, body, rfl⟩ := hL t ht
      rcases List.mem_cons.mp hct with h3 | h4
      · exact absurd h3 (by decide)
      · exact absurd (List.of_mem_filter h4) (by decide)
  have htok : tokensOf (joinSpaces L) = L := by
    rw [tokensOf, map_nl2sp_eq_self (fun h => hnl (mem_pyStrip h)), pySplitWs_pyStrip,
      split_joinSpaces hne hns]
  have hfix : ∀ t ∈ L, cleanTok t = t := by
    intro t ht
    obtain ⟨hlen, body, hbody⟩ := hL t ht
    refine cleanTok_fixed ?_ ?_ (hns t ht)
    · rw [hbody]; rfl
    · intro c hc
      rw [hbody] at hc
      exact List.of_mem_filter (by simpa using hc)
  rw [validTokens, htok, map_eq_self_of hfix]
  refine List.filter_eq_self.mpr fun t ht => ?_
  simp only [decide_eq_true_eq]
  exact (hL t ht).1

end Alwrity

namespace Alwrity

/-! ### Catalog lookup helpers -/

theorem platformLookup_mem {name : String} {prof : PlatformProfile}
    (h : platformLookup name = some prof) :
    prof = instagramProfile ∨ prof = tiktokProfile ∨ prof = linkedinProfile ∨
      prof = twitterProfile ∨ prof = youtubeProfile := by
  rw [platformLookup] at h
  obtain ⟨pr, hfind, hsnd⟩ := Option.map_eq_some'.mp h
  have hmem := List.mem_of_find?_eq_some hfind
  simp only [PLATFORM_CONFIG, List.mem_cons, List.not_mem_nil, or_false] at hmem
  rcases hmem with rfl | rfl | rfl | rfl | rfl
  · exact Or.inl hsnd.symm
  · exact Or.inr (Or.inl hsnd.symm)
  · exact Or.inr (Or.inr (Or.inl hsnd.symm))
  · exact Or.inr (Or.inr (Or.inr (Or.inl hsnd.symm)))
  · exact Or.inr (Or.inr (Or.inr (Or.inr hsnd.symm)))

theorem platformLookup_bounds {name : String} {prof : PlatformProfile}
    (h : platformLookup name = some prof) :
    0 < prof.optimal_min ∧ prof.optimal_min ≤ prof.optimal_max := by
  rcases platformLookup_mem h with rfl | rfl | rfl | rfl | rfl <;> exact ⟨by decide, by decide⟩

/-! ### Unique occurrence of a character in a list -/

theorem append_cons_eq_unique {α : Type} {c : α} :
    ∀ (P : List α) {T x y : List α}, c ∉ P → c ∉ T →
      P ++ c :: T = x ++ c :: y → y = T := by
  intro P
  induction P with
  | nil =>
    intro T x y _ hT h
    cases x with
    | nil =>
      simp only [List.nil_append] at h
      exact (List.cons.inj h).2.symm
    | cons b x' =>
      simp only [List.nil_append, List.cons_append] at h
      obtain ⟨rfl, hT'⟩ := List.cons.inj h
      exact absurd (hT' ▸ List.mem_append_right x' (List.mem_cons_self c y)) hT
  | cons a P' ih =>
    intro T x y hP hT h
    cases x with
    | nil =>
      simp only [List.cons_append, List.nil_append] at h
      obtain ⟨rfl, _⟩ := List.cons.inj h
      exact absurd (List.mem_cons_self a P') hP
    | cons b x' =>
      simp only [List.cons_append] at h
      obtain ⟨rfl, h2⟩ := List.cons.inj h
      exact ih (fun hc => hP (List.mem_cons_of_mem a hc)) hT h2

/-- If a list decomposes as `P ++ c :: T` with `c` occurring neither in `P`
nor in `T`, and also as a chain placing `c` before a segment `r2`, then `r2`
lies inside `T`: any element of `r2` is an element of `T`. -/
theorem no_seg_between {c k : Char} {P T u v w r1 r2 r3 : List Char}
    (h : P ++ c :: T = u ++ (v ++ (w ++ (c :: (r1 ++ (r2 ++ r3))))))
    (hP : c ∉ P) (hT : c ∉ T) (hk : k ∈ r2) : k ∈ T := by
  have hassoc : u ++ (v ++ (w ++ (c :: (r1 ++ (r2 ++ r3))))) =
      (u ++ v ++ w) ++ c :: (r1 ++ (r2 ++ r3)) := by
    simp [List.append_assoc]
  have hy := append_cons_eq_unique P hP hT (h.trans hassoc)
  rw [← hy]
  exact List.mem_append_right _ (List.mem_append_left _ hk)

/-! ### Claim C4: ordering of the pieces of the enhanced prompt -/

/-- C4 (corrected, counterexample): the claimed order — role statement, then
the content, then the platform requirements, then the category block, then
the output directive — fails: in the concrete prompt built from content
`"Q"`, platform `"Twitter"`, category `"Business"`, count 3, the content
occurs only after the requirements text, so no decomposition placing the
content before the requirements exists. -/
theorem enhanced_prompt_claimed_order_fails :
    ¬ ContainsInOrder5
      "You are an expert social media strategist specializing in Twitter content."
      "Q"
      (get_platform_info "Twitter").requirements
      ("Category focus: Business\nInclude relevant terms like: " ++
        String.intercalate ", " (categoryGet "Business" []))
      "- Output EXACTLY 3 hashtags and nothing else"
      (get_enhanced_prompt "Q" "Twitter" "Business" 3 "manual input") := by
  rintro ⟨a0, a1, a2, a3, a4, a5, heq⟩
  have hdata := congrArg String.data heq
  have hsplit : (get_enhanced_prompt "Q" "Twitter" "Business" 3 "manual input").data =
      promptPre.data ++ 'Q' :: promptTail.data := by decide
  rw [hsplit] at hdata
  simp only [String.data_append, List.append_assoc, List.singleton_append] at hdata
  have hK : 'K' ∈ promptTail.data :=
    no_seg_between hdata (by decide) (by decide)
      (by decide : 'K' ∈ (get_platform_info "Twitter").requirements.data)
  exact absurd hK (by decide)

/-- C4 (corrected, amended): for every content, platform, category, count and
source type, the enhanced prompt contains, in this order: the role statement
naming the platform, then the platform's requirements text, then the
category name with its keyword list, then the source content verbatim, then
the output-format directive. (The claim's order placed the content second;
in the template it comes fourth, after requirements and category.) -/
theorem enhanced_prompt_contains_in_order
    (content platform category source_type : String) (num : Int) :
    ContainsInOrder5
      ("You are an expert social media strategist specializing in " ++ platform ++
        " content.")
      (get_platform_info platform).requirements
      ("Category focus: " ++ category ++ "\nInclude relevant terms like: " ++
        String.intercalate ", " (categoryGet category []))
      content
      ("- Output EXACTLY " ++ toString num ++ " hashtags and nothing else")
      (get_enhanced_prompt content platform category num source_type) := by
  refine ⟨"\n",
    "\nGiven the following content from " ++ source_type ++ ", generate exactly " ++
      toString num ++ " high-quality, \ntrend-aware, brand-safe hashtags optimized for " ++
      platform ++ " in the " ++ category ++ " niche.\n\nPlatform-specific requirements for " ++
      platform ++ ":\n",
    "\n\n",
    "\n\nContent: \"",
    "\"" ++ "\n\nGuidelines:\n- Optimize for " ++ platform ++
      " algorithm and user behavior\n- Include " ++ category ++
      "-specific terminology\n- Mix broad reach and niche targeting hashtags\n- Make hashtags short (1–3 words), readable, and relevant\n- Avoid duplicates, numbers, and banned/sensitive words\n- Use only standard ASCII characters; no emojis\n- Output as ONE single line, space-separated, each starting with '#'\n",
    "\n\nGenerate " ++ toString num ++ " hashtags:\n", ?_⟩
  simp only [get_enhanced_prompt, formatEnhancedPrompt, String.append_assoc]

end Alwrity

namespace Alwrity

/-! ### Claim C1 -/

/-- C1 (code bug): the normalization routine does not respect a `max_count`
of 0, although its own docstring promises `length <= num`: the truncation
check `len(cleaned) >= num` runs only after the first append, so
normalizing `"#ab"` with `max_count = 0` returns one element, not zero. -/
theorem normalize_zero_count_excess :
    normalize ("#ab".data) 0 = [("#ab".data)] ∧
    ¬ ((normalize ("#ab".data) 0).length ≤ 0) := by
  decide

/-! ### Claim C2 -/

/-- C2: for every platform in the catalog and every integer count, the
adjusted count is the requested count when it lies inside the optimal range,
the lower bound when it is below, and the upper bound when it is above; in
particular with Twitter's range (1,3), a request of 10 becomes 3 and a
request of 2 stays 2. -/
theorem adjust_count_for_platform_clamps :
    (∀ (name : String) (prof : PlatformProfile) (c : Int),
      platformLookup name = some prof →
        (prof.optimal_min ≤ c ∧ c ≤ prof.optimal_max →
          adjust_count_for_platform name c = c) ∧
        (c < prof.optimal_min →
          adjust_count_for_platform name c = prof.optimal_min) ∧
        (prof.optimal_max < c →
          adjust_count_for_platform name c = prof.optimal_max)) ∧
    adjust_count_for_platform "Twitter" 10 = 3 ∧
    adjust_count_for_platform "Twitter" 2 = 2 := by
  refine ⟨?_, by decide, by decide⟩
  intro name prof c h
  obtain ⟨hpos, hminmax⟩ := platformLookup_bounds h
  simp only [adjust_count_for_platform, h]
  refine ⟨fun hc => ?_, fun hc => ?_, fun hc => ?_⟩
  · rw [if_pos hc]
  · rw [if_neg (by omega), if_pos hc]
  · rw [if_neg (by omega), if_neg (by omega)]

/-- Witness for C2 at a concrete catalog platform and in-range count. -/
theorem adjust_count_for_platform_clamps_witness :
    adjust_count_for_platform "LinkedIn" 4 = 4 :=
  (adjust_count_for_platform_clamps.1 "LinkedIn" linkedinProfile 4 (by decide)).1
    (by decide)

/-! ### Claim C3 -/

/-- C3 (corrected, counterexample): body filtering keeps every character
Python counts as alphanumeric, not only ASCII ones: the accented letter in
`"#café"` survives normalization, so the output token is not made of ASCII
alphanumerics/underscores only (the claim would require `"#caf"`). -/
theorem normalize_keeps_accented :
    normalize ("#café".data) 5 = [("#café".data)] ∧
    ¬ (∀ t ∈ normalize ("#café".data) 5, ∀ c ∈ t.drop 1, asciiAlnumU c = true) := by
  decide

/-- C3 (corrected, amended): every element of the normalization output has
length greater than 1, starts with `#`, and each following character passes
the loop's filter — Python's (Unicode) `isalnum` or underscore — rather
than the claimed ASCII-only class. -/
theorem normalize_token_shape :
    ∀ (raw : List Char) (num : Int), ∀ t ∈ normalize raw num,
      1 < t.length ∧ t.take 1 = ['#'] ∧ ∀ c ∈ t.drop 1, pyKeep c = true := by
  intro raw num t ht
  obtain ⟨hlen, body, rfl⟩ := mem_normalize ht
  exact ⟨hlen, rfl, fun c hc => List.of_mem_filter (by simpa using hc)⟩

/-- Witness for C3's amended theorem on a concrete output token. -/
theorem normalize_token_shape_witness :
    1 < ("#ab".data).length ∧ ("#ab".data).take 1 = ['#'] ∧
      ∀ c ∈ ("#ab".data).drop 1, pyKeep c = true :=
  normalize_token_shape ("#ab".data) 5 ("#ab".data) (by decide)

/-! ### Claim C5 -/

/-- C5 (corrected, counterexample): for a platform name outside the catalog
the function returns the requested count unchanged, so a request of 0
yields 0, which is not positive. -/
theorem adjust_count_unknown_nonpositive :
    adjust_count_for_platform "Newsletter" 0 = 0 ∧
    ¬ (0 < adjust_count_for_platform "Newsletter" 0) := by
  decide

/-- C5 (corrected, amended): the function is total (no error is possible in
the embedding) and returns a positive integer for every cataloged platform
name and any integer count; for names outside the catalog it returns the
requested count unchanged, which is positive only when the request is. -/
theorem adjust_count_total_positive_on_catalog :
    (∀ (name : String) (prof : PlatformProfile) (c : Int),
      platformLookup name = some prof → 0 < adjust_count_for_platform name c) ∧
    (∀ (name : String) (c : Int), platformLookup name = none →
      adjust_count_for_platform name c = c) := by
  constructor
  · intro name prof c h
    obtain ⟨hpos, hminmax⟩ := platformLookup_bounds h
    simp only [adjust_count_for_platform, h]
    split_ifs <;> omega
  · intro name c h
    simp [adjust_count_for_platform, h]

/-- Witness for C5's amended theorem: a cataloged platform gives a positive
count even for a negative request. -/
theorem adjust_count_total_positive_on_catalog_witness :
    0 < adjust_count_for_platform "Twitter" (-5) :=
  adjust_count_total_positive_on_catalog.1 "Twitter" twitterProfile (-5) (by decide)

/-! ### Claim C6 -/

/-- C6 (corrected, counterexample): an unknown category name yields the
empty keyword list, not the Business category's keyword list. -/
theorem category_fallback_not_business :
    categoryLookup "Sports" = none ∧
    get_category_keywords "Sports" = [] ∧
    get_category_keywords "Sports" ≠ get_category_keywords "Business" := by
  decide

/-- C6 (corrected, amended): for every category name outside the catalog the
lookup falls back to the empty keyword list (the fallback itself never
fails), not to the Business keywords. -/
theorem category_unknown_empty :
    ∀ name : String, categoryLookup name = none → get_category_keywords name = [] := by
  intro name h
  have hf : CATEGORY_KEYWORDS.find? (fun p => p.1 == name) = none := by
    rcases ho : CATEGORY_KEYWORDS.find? (fun p => p.1 == name) with _ | pr
    · exact ho
    · rw [categoryLookup, ho] at h
      simp at h
  simp [get_category_keywords, categoryGet, hf]

/-- Witness for C6's amended theorem on a concrete unknown category. -/
theorem category_unknown_empty_witness :
    get_category_keywords "Sports" = [] :=
  category_unknown_empty "Sports" (by decide)

/-! ### Claim C7 -/

/-- C7: when the resolved API key is empty, `generate_hashtags` fails with a
configuration error whose message names `GEMINI_API_KEY`, and it does so
before the generation service is consulted: the result is the same error
for every gateway. -/
theorem generate_hashtags_missing_key :
    ∀ (apiKey : String) (gw gw' : String → Except String (Option String))
      (seed : String) (num : Int) (tmpl : String → Int → String),
      apiKey = "" →
        generate_hashtags apiKey gw seed num tmpl =
          Except.error (GenError.config missingKeyMsg) ∧
        generate_hashtags apiKey gw seed num tmpl =
          generate_hashtags apiKey gw' seed num tmpl ∧
        strContainsSeg "GEMINI_API_KEY" missingKeyMsg := by
  intro apiKey gw gw' seed num tmpl h
  subst h
  refine ⟨rfl, rfl,
    ⟨"Missing ", ". Set it in environment or Streamlit secrets.", by decide⟩⟩

/-- Witness for C7 at concrete gateways and inputs. -/
theorem generate_hashtags_missing_key_witness :
    generate_hashtags "" (fun _ => Except.ok (some "#x")) "seed" 5 (fun s _ => s) =
      Except.error (GenError.config missingKeyMsg) :=
  (generate_hashtags_missing_key "" (fun _ => Except.ok (some "#x"))
    (fun _ => Except.error "down") "seed" 5 (fun s _ => s) rfl).1

/-! ### Claim C8 -/

/-- C8: the normalization routine is idempotent on its own output: if `L`
is the normalized output and the new limit is at least `L`'s length, then
normalizing the space-joined `L` returns exactly `L`. -/
theorem normalize_idempotent (raw : List Char) (k n : Int)
    (h : ((normalize raw k).length : Int) ≤ n) :
    normalize (joinSpaces (normalize raw k)) n = normalize raw k := by
  rw [normalize_characterization (joinSpaces (normalize raw k)) n,
    validTokens_joinSpaces _ (fun t ht => mem_normalize ht)]
  simp only [dedupFirst]
  rw [dedupFirstSeen_eq_self (normalize_nodup raw k)
    (fun x _ hx => (List.not_mem_nil x) hx)]
  apply List.take_of_length_le
  rcases Nat.eq_zero_or_pos (normalize raw k).length with h0 | hpos
  · rw [h0]
    exact Nat.zero_le _
  · have hn1 : 1 ≤ n := by omega
    rw [max_eq_right hn1]
    omega

/-- Witness for C8 at a concrete text and limits. -/
theorem normalize_idempotent_witness :
    normalize (joinSpaces (normalize ("#a #b".data) 5)) 2 = normalize ("#a #b".data) 5 :=
  normalize_idempotent ("#a #b".data) 5 2 (by decide)

/-! ### Claim C9 -/

/-- C9: deduplication is case-sensitive exact string matching: normalizing
`"#fitness #fitness #Fitness"` with limit 5 yields exactly
`["#fitness", "#Fitness"]`, in that order. -/
theorem normalize_case_sensitive_dedup :
    normalize ("#fitness #fitness #Fitness".data) 5 =
      ["#fitness".data, "#Fitness".data] := by
  decide

/-! ### Claim C10 -/

/-- C10: for every platform name outside the catalog the user count is
returned completely unchanged — no clamping and no Instagram fallback —
including zero and negative counts. -/
theorem adjust_count_unknown_identity :
    ∀ (name : String) (c : Int), platformLookup name = none →
      adjust_count_for_platform name c = c := by
  intro name c h
  simp [adjust_count_for_platform, h]

/-- Witness for C10 at a concrete unknown platform and negative count. -/
theorem adjust_count_unknown_identity_witness :
    adjust_count_for_platform "Facebook" (-7) = -7 :=
  adjust_count_unknown_identity "Facebook" (-7) (by decide)

end Alwrity
